import Mathlib

/-!
Verification of the local persistence layer of the wavechat repository
(`src/services/databaseService.js`).

The service stores four JSON blobs in a key-value store (AsyncStorage):
  * `local_messages`      : object mapping conversation id to an array of messages
  * `local_conversations` : array of conversation records
  * `local_message_reactions` : object mapping message id to an array of reactions
  * `local_message_replies`   : object mapping message id to an array of replies

JavaScript objects are modelled as insertion-ordered association lists
(`List (String × α)`): `obj[k]` reads the first entry with key `k`,
`obj[k] = v` overwrites that entry in place or appends a fresh key at the
end, `delete obj[k]` removes the entry, and `for (const k in obj)`
iterates entries in insertion order.  JavaScript falsiness of optional
string fields (`!msg.type` is true for both a missing field and the empty
string) is modelled by `falsyStr`.  Fractional seconds in the mock
transcription are represented in tenths of a second to stay in `Nat`.
-/

namespace WaveChat

/-- A message as stored in the `local_messages` blob.  Optional fields model
properties that may be absent on a JavaScript object.  `audioDuration` and
`waveform` are only meaningful for audio messages. -/
structure Message where
  id : String
  text : Option String := none
  timestamp : String := ""
  senderId : String := ""
  senderName : String := ""
  type : Option String := none
  audioUri : Option String := none
  audioDuration : Nat := 0
  waveform : List Nat := []
  tags : List String := []
  deriving Repr, DecidableEq

/-- A conversation record as stored in the `local_conversations` blob. -/
structure Conversation where
  id : String
  participantName : String := ""
  participantAvatar : String := ""
  lastMessage : Option String := none
  lastMessageTimestamp : String := ""
  lastMessageType : Option String := none
  read : Bool := true
  unreadCount : Nat := 0
  deriving Repr, DecidableEq

/-- A reaction or reply record (the service code treats both identically:
it only ever reads and writes the `createdAt` field and appends the record
to a per-message list).  `emoji` is used by reactions, `text` by replies;
`timestamp` is the anchor position inside the audio, in tenths of a
second. -/
structure Annot where
  id : String := ""
  emoji : String := ""
  text : String := ""
  timestamp : Nat := 0
  username : String := ""
  userId : String := ""
  createdAt : Option String := none
  deriving Repr, DecidableEq

/-- The `local_messages` blob: conversation id ↦ ordered list of messages. -/
abbrev MessagesStore := List (String × List Message)

/-- The `local_message_reactions` / `local_message_replies` blobs:
message id ↦ ordered list of records. -/
abbrev AnnotStore := List (String × List Annot)

/-- The whole key-value store relevant to the service. -/
structure Store where
  messages : MessagesStore := []
  conversations : List Conversation := []
  reactions : AnnotStore := []
  replies : AnnotStore := []
  deriving Repr, DecidableEq

/-- JavaScript property read `obj[k]`: the value at the first entry with
key `k`, if any. -/
def alookup {α : Type} (k : String) : List (String × α) → Option α
  | [] => none
  | (k', v) :: rest => if k' = k then some v else alookup k rest

/-- Read with a default, as in `JSON.parse(x) || {}` followed by
`obj[k] || []` style access. -/
def lookupD {α : Type} (m : List (String × α)) (k : String) (d : α) : α :=
  (alookup k m).getD d

/-- JavaScript property write `obj[k] = v`: overwrite the first entry with
key `k` in place, or append the key at the end when absent. -/
def aset {α : Type} (k : String) (v : α) : List (String × α) → List (String × α)
  | [] => [(k, v)]
  | (k', v') :: rest => if k' = k then (k, v) :: rest else (k', v') :: aset k v rest

/-- JavaScript `delete obj[k]`. -/
def aerase {α : Type} (k : String) : List (String × α) → List (String × α)
  | [] => []
  | (k', v') :: rest => if k' = k then rest else (k', v') :: aerase k rest

/-- JavaScript falsiness of an optional string property: `!x` is true when
the property is absent or the empty string. -/
def falsyStr : Option String → Bool
  | none => true
  | some s => s == ""

/-! ## Input records of the exported operations -/

/-- The `messageData` argument of `sendMessageToGCP`. -/
structure MessageData where
  conversationId : String
  text : String
  senderId : String
  timestamp : String
  deriving Repr, DecidableEq

/-- The `messageData` argument of `sendAudioMessage`.  The `waveform`
field is optional; the code generates a random one when it is absent. -/
structure AudioMessageData where
  conversationId : String
  audioUri : String
  audioDuration : Nat
  senderId : String
  timestamp : String
  waveform : Option (List Nat) := none
  deriving Repr, DecidableEq

/-- The `participantData` argument of `createNewConversation`. -/
structure ParticipantData where
  name : String
  avatar : Option String := none
  deriving Repr, DecidableEq

/-! ## Key-value writes

`sendMessageToGCP` and `sendAudioMessage` persist their effect as two
separate `AsyncStorage.setItem` calls — first the messages blob, then the
conversations blob.  `KVWrite` records a single such call; an operation's
effect is the left fold of its write list over the starting store. -/

/-- One `AsyncStorage.setItem` call on one of the four blobs. -/
inductive KVWrite where
  | messages (m : MessagesStore)
  | conversations (c : List Conversation)
  | reactions (r : AnnotStore)
  | replies (r : AnnotStore)
  deriving Repr, DecidableEq

/-- Apply a single key-value write to the store. -/
def applyWrite (st : Store) : KVWrite → Store
  | .messages m => { st with messages := m }
  | .conversations c => { st with conversations := c }
  | .reactions r => { st with reactions := r }
  | .replies r => { st with replies := r }

/-- Apply a sequence of key-value writes in order. -/
def applyWrites (st : Store) (ws : List KVWrite) : Store :=
  ws.foldl applyWrite st

/-! ## getMessages (databaseService.js lines 94-114) -/

/-- `getMessages(conversationId)`: read the messages blob and return the
array stored under the conversation id, or `[]` when absent.  The source
performs no write, so it is a pure read of the store. -/
def getMessages (st : Store) (conversationId : String) : List Message :=
  lookupD st.messages conversationId []

/-! ## sendMessageToGCP (databaseService.js lines 120-175) -/

/-- The new message object built by `sendMessageToGCP`; `now` stands for
`Date.now()`, used to generate the id. -/
def sendMessage_newMessage (md : MessageData) (now : Nat) : Message :=
  { id := "msg_" ++ toString now
    text := some md.text
    timestamp := md.timestamp
    senderId := md.senderId
    senderName := if md.senderId = "123" then "You" else "Other User"
    type := some "text" }

/-- The messages blob after `sendMessageToGCP`: the new message pushed onto
the conversation's array (created empty first when the key is absent). -/
def sendMessage_messagesAfter (msgs : MessagesStore) (md : MessageData) (now : Nat) :
    MessagesStore :=
  aset md.conversationId
    (lookupD msgs md.conversationId [] ++ [sendMessage_newMessage md now]) msgs

/-- The conversations blob after `sendMessageToGCP`: the matching record's
preview fields are rewritten, every other record is returned as is. -/
def sendMessage_conversationsAfter (convs : List Conversation) (md : MessageData) :
    List Conversation :=
  convs.map fun conv =>
    if conv.id = md.conversationId then
      { conv with
        lastMessage := some md.text
        lastMessageTimestamp := md.timestamp
        lastMessageType := some "text"
        read := md.senderId = "123"
        unreadCount := if md.senderId = "123" then 0 else conv.unreadCount + 1 }
    else conv

/-- The two `setItem` calls of `sendMessageToGCP`, in source order:
messages first (line 167), conversations second (line 168). -/
def sendMessage_writes (st : Store) (md : MessageData) (now : Nat) : List KVWrite :=
  [ KVWrite.messages (sendMessage_messagesAfter st.messages md now),
    KVWrite.conversations (sendMessage_conversationsAfter st.conversations md) ]

/-- `sendMessageToGCP(messageData)`: perform both writes and return the new
message object. -/
def sendMessageToGCP (st : Store) (md : MessageData) (now : Nat) : Store × Message :=
  (applyWrites st (sendMessage_writes st md now), sendMessage_newMessage md now)

/-! ## sendAudioMessage (databaseService.js lines 178-253) -/

/-- The audio directory prefix.  `FileSystem.documentDirectory` is a device
path unknown to the model; only the shape `<dir>/audio/<file>` matters. -/
def AUDIO_DIRECTORY : String := "documents/audio/"

/-- The `formatDuration` helper of `sendAudioMessage` (lines 223-227):
`minutes:seconds` with a leading zero on the seconds. -/
def formatDuration (seconds : Nat) : String :=
  let minutes := seconds / 60
  let remainingSeconds := seconds % 60
  toString minutes ++ ":" ++ (if remainingSeconds < 10 then "0" else "") ++
    toString remainingSeconds

/-- The preview string used for audio messages. -/
def voiceLabel (audioDuration : Nat) : String :=
  "🎤 Voice message (" ++ formatDuration audioDuration ++ ")"

/-- The new message object built by `sendAudioMessage`; `now` stands for
`Date.now()` and `randWf` for the randomly generated fallback waveform. -/
def sendAudio_newMessage (amd : AudioMessageData) (now : Nat) (randWf : List Nat) :
    Message :=
  { id := "msg_" ++ toString now
    audioUri := some (AUDIO_DIRECTORY ++ "voice_" ++ toString now ++ ".m4a")
    audioDuration := amd.audioDuration
    timestamp := amd.timestamp
    senderId := amd.senderId
    senderName := if amd.senderId = "123" then "You" else "Other User"
    type := some "audio"
    waveform := match amd.waveform with
      | some w => w
      | none => randWf
    tags := [] }

/-- The messages blob after `sendAudioMessage`. -/
def sendAudio_messagesAfter (msgs : MessagesStore) (amd : AudioMessageData)
    (now : Nat) (randWf : List Nat) : MessagesStore :=
  aset amd.conversationId
    (lookupD msgs amd.conversationId [] ++ [sendAudio_newMessage amd now randWf]) msgs

/-- The conversations blob after `sendAudioMessage`. -/
def sendAudio_conversationsAfter (convs : List Conversation) (amd : AudioMessageData) :
    List Conversation :=
  convs.map fun conv =>
    if conv.id = amd.conversationId then
      { conv with
        lastMessage := some (voiceLabel amd.audioDuration)
        lastMessageTimestamp := amd.timestamp
        lastMessageType := some "audio"
        read := amd.senderId = "123"
        unreadCount := if amd.senderId = "123" then 0 else conv.unreadCount + 1 }
    else conv

/-- The two `setItem` calls of `sendAudioMessage`, in source order:
messages first (line 245), conversations second (line 246). -/
def sendAudio_writes (st : Store) (amd : AudioMessageData) (now : Nat)
    (randWf : List Nat) : List KVWrite :=
  [ KVWrite.messages (sendAudio_messagesAfter st.messages amd now randWf),
    KVWrite.conversations (sendAudio_conversationsAfter st.conversations amd) ]

/-- `sendAudioMessage(messageData)`: perform both writes and return the new
message object. -/
def sendAudioMessage (st : Store) (amd : AudioMessageData) (now : Nat)
    (randWf : List Nat) : Store × Message :=
  (applyWrites st (sendAudio_writes st amd now randWf),
   sendAudio_newMessage amd now randWf)

/-! ## updateMessageTags (databaseService.js lines 259-292)

The source iterates the conversation keys in insertion order, takes the
first conversation whose array has a message with the requested id
(`findIndex`), overwrites that message's `tags` property, and stops
(`break`).  When no conversation has such a message it returns `false`
without writing. -/

/-- Rewrite the `tags` property of the first message with the given id in
one array; `none` when the array has no such message. -/
def updateTagsInList : List Message → String → List String → Option (List Message)
  | [], _, _ => none
  | m :: rest, messageId, tags =>
    if m.id = messageId then some ({ m with tags := tags } :: rest)
    else (updateTagsInList rest messageId tags).map (m :: ·)

/-- Rewrite the `tags` property of the first message with the given id
across the whole messages blob; `none` when no conversation has one. -/
def updateTagsInStore : MessagesStore → String → List String → Option MessagesStore
  | [], _, _ => none
  | (cid, l) :: rest, messageId, tags =>
    match updateTagsInList l messageId tags with
    | some l' => some ((cid, l') :: rest)
    | none => (updateTagsInStore rest messageId tags).map ((cid, l) :: ·)

/-- `updateMessageTags(messageId, tags)`: returns the `true`/`false` result
and the store after the operation. -/
def updateMessageTags (st : Store) (messageId : String) (tags : List String) :
    Bool × Store :=
  match updateTagsInStore st.messages messageId tags with
  | some messages' => (true, { st with messages := messages' })
  | none => (false, st)

/-! ## addReactionToMessage / addReplyToMessage
(databaseService.js lines 295-325 and 346-376)

Both functions are identical up to the blob they touch: create the
per-message array when absent, default the record's `createdAt` to the
current time when it is falsy, push the record at the end, write the blob
back, return `true`. -/

/-- `createdAt` defaulting: `if (!r.createdAt) r.createdAt = new
Date().toISOString()`; `nowIso` stands for the generated timestamp. -/
def annotWithCreatedAt (a : Annot) (nowIso : String) : Annot :=
  if falsyStr a.createdAt then { a with createdAt := some nowIso } else a

/-- Push one record at the end of the per-message array of a blob. -/
def addAnnot (store : AnnotStore) (messageId : String) (a : Annot)
    (nowIso : String) : AnnotStore :=
  aset messageId (lookupD store messageId [] ++ [annotWithCreatedAt a nowIso]) store

/-- `addReactionToMessage(messageId, reaction)`. -/
def addReactionToMessage (st : Store) (messageId : String) (a : Annot)
    (nowIso : String) : Bool × Store :=
  (true, { st with reactions := addAnnot st.reactions messageId a nowIso })

/-- `addReplyToMessage(messageId, reply)`. -/
def addReplyToMessage (st : Store) (messageId : String) (a : Annot)
    (nowIso : String) : Bool × Store :=
  (true, { st with replies := addAnnot st.replies messageId a nowIso })

/-! ## markMessagesAsRead (databaseService.js lines 397-426) -/

/-- `markMessagesAsRead(conversationId, userId)`: set `read`/`unreadCount`
on the matching conversation record; `userId` is accepted and unused, as in
the source. -/
def markMessagesAsRead (st : Store) (conversationId : String) (_userId : String) :
    Bool × Store :=
  (true,
   { st with
     conversations := st.conversations.map fun conv =>
       if conv.id = conversationId then { conv with read := true, unreadCount := 0 }
       else conv })

/-! ## createNewConversation (databaseService.js lines 429-470) -/

/-- `createNewConversation(participantData)`: prepend a fresh conversation
record and give it an empty message array.  `now` stands for `Date.now()`,
`nowIso` for `new Date().toISOString()` and `randAvatar` for the randomly
generated avatar URL used when `participantData.avatar` is falsy. -/
def createNewConversation (st : Store) (pd : ParticipantData) (now : Nat)
    (nowIso : String) (randAvatar : String) : Store × Conversation :=
  let newConversationId := "conv_" ++ toString now
  let newConversation : Conversation :=
    { id := newConversationId
      participantName := pd.name
      participantAvatar := if falsyStr pd.avatar then randAvatar else pd.avatar.getD ""
      lastMessage := some ""
      lastMessageTimestamp := nowIso
      lastMessageType := some "text"
      read := true
      unreadCount := 0 }
  ({ st with
     conversations := newConversation :: st.conversations
     messages := aset newConversationId [] st.messages },
   newConversation)

/-! ## deleteMessage (databaseService.js lines 490-586) -/

/-- The inner `findIndex` scan: index and value of the first message with
the given id in one array. -/
def findMsgInList : List Message → String → Option (Nat × Message)
  | [], _ => none
  | m :: rest, messageId =>
    if m.id = messageId then some (0, m)
    else (findMsgInList rest messageId).map (fun p => (p.1 + 1, p.2))

/-- The `for (const convId in allMessages)` scan of `deleteMessage`
combined with the `splice` on the found array: returns the conversation id
holding the first occurrence of the message, the deleted message, the
conversation's array after the splice, and the whole blob after the
splice; `none` when no conversation has the message. -/
def eraseFirstMsg : MessagesStore → String → Option (String × Message × List Message × MessagesStore)
  | [], _ => none
  | (cid, l) :: rest, messageId =>
    match findMsgInList l messageId with
    | some (i, m) => some (cid, m, l.eraseIdx i, (cid, l.eraseIdx i) :: rest)
    | none =>
      (eraseFirstMsg rest messageId).map
        fun r => (r.1, r.2.1, r.2.2.1, (cid, l) :: r.2.2.2)

/-- The preview text `deleteMessage` derives from a remaining last message
(lines 552-560): the formatted voice label for audio messages, the `text`
property otherwise. -/
def previewText (m : Message) : Option String :=
  if m.type = some "audio" then some (voiceLabel m.audioDuration) else m.text

/-- `deleteMessage(messageId)`: the guard at line 513 is
`if (!conversationId || messageIndex === -1) return false`, and `!''` is
true in JavaScript, so a message found under an empty-string conversation
key also makes the function return `false` with no writes at all.
Otherwise the first message with the given id is removed, the message's
reaction and reply arrays are dropped, and — only when the conversation
still has messages — the conversation record's preview fields are
rewritten from the new last message.  Returns `false` and writes nothing
when the message is not found. -/
def deleteMessage (st : Store) (messageId : String) : Bool × Store :=
  match eraseFirstMsg st.messages messageId with
  | none => (false, st)
  | some (conversationId, _deleted, newList, messages') =>
    if conversationId = "" then (false, st)
    else
      let reactions' := aerase messageId st.reactions
      let replies' := aerase messageId st.replies
      let conversations' :=
        match newList.getLast? with
        | none => st.conversations
        | some lastMessage =>
          st.conversations.map fun conv =>
            if conv.id = conversationId then
              { conv with
                lastMessage := previewText lastMessage
                lastMessageTimestamp := lastMessage.timestamp
                lastMessageType := lastMessage.type }
            else conv
      (true,
       { messages := messages', conversations := conversations',
         reactions := reactions', replies := replies' })

/-! ## fixMessageTypes (databaseService.js lines 671-709) -/

/-- The per-message repair: when `msg.type` is falsy, assign `'audio'` when
`msg.audioUri` is truthy and `'text'` otherwise; leave the message alone
when it has a truthy type. -/
def fixMessageType (m : Message) : Message :=
  if falsyStr m.type then
    if falsyStr m.audioUri then { m with type := some "text" }
    else { m with type := some "audio" }
  else m

/-- `fixMessageTypes`: the messages blob after the repair pass (the source
skips the write when nothing changed, which yields the same blob). -/
def fixMessageTypes (msgs : MessagesStore) : MessagesStore :=
  msgs.map fun e => (e.1, e.2.map fixMessageType)

/-! ## transcribeAudio (databaseService.js lines 608-628) -/

/-- One segment of the mock transcription; segment boundaries are in
tenths of a second (the source uses fractional seconds). -/
structure TranscriptSegment where
  text : String
  startTenths : Nat
  endTenths : Nat
  deriving Repr, DecidableEq

/-- The mock transcription result. -/
structure TranscriptionResult where
  text : String
  segments : List TranscriptSegment
  deriving Repr, DecidableEq

/-- `transcribeAudio(audioUri)`: the source builds and returns this literal
object on every call, never reading the argument or the store. -/
def transcribeAudio (_audioUri : String) : TranscriptionResult :=
  { text := "This is a sample transcription of the audio message. In a real app, this would be the actual transcribed content from a speech-to-text service."
    segments :=
      [ { text := "This is a sample transcription", startTenths := 0, endTenths := 32 },
        { text := "of the audio message.", startTenths := 33, endTenths := 51 },
        { text := "In a real app, this would be", startTenths := 52, endTenths := 78 },
        { text := "the actual transcribed content", startTenths := 79, endTenths := 105 },
        { text := "from a speech-to-text service.", startTenths := 106, endTenths := 132 } ] }

/-! ## The exported store-mutating operations as a single type

`clearAllData` (which wipes every blob and reinstalls dummy data) is
deliberately not an `Op`; the claims about preservation exclude it.  The
read-only exports (`getConversations`, `getMessages`,
`getMessageReactions`, `getMessageReplies`, `generateWaveform`,
`detectSpeechSegments`, `transcribeAudio`) perform no store write. -/

inductive Op where
  | sendMessage (md : MessageData) (now : Nat)
  | sendAudio (amd : AudioMessageData) (now : Nat) (randWf : List Nat)
  | updateTags (messageId : String) (tags : List String)
  | addReaction (messageId : String) (a : Annot) (nowIso : String)
  | addReply (messageId : String) (a : Annot) (nowIso : String)
  | markRead (conversationId : String) (userId : String)
  | newConversation (pd : ParticipantData) (now : Nat) (nowIso : String) (randAvatar : String)
  | deleteMsg (messageId : String)
  deriving Repr, DecidableEq

/-- The store after one exported operation. -/
def applyOp (op : Op) (st : Store) : Store :=
  match op with
  | .sendMessage md now => (sendMessageToGCP st md now).1
  | .sendAudio amd now randWf => (sendAudioMessage st amd now randWf).1
  | .updateTags messageId tags => (updateMessageTags st messageId tags).2
  | .addReaction messageId a nowIso => (addReactionToMessage st messageId a nowIso).2
  | .addReply messageId a nowIso => (addReplyToMessage st messageId a nowIso).2
  | .markRead conversationId userId => (markMessagesAsRead st conversationId userId).2
  | .newConversation pd now nowIso randAvatar =>
      (createNewConversation st pd now nowIso randAvatar).1
  | .deleteMsg messageId => (deleteMessage st messageId).2

/-- Whether an operation writes the reactions or replies blobs at all. -/
def opTouchesAnnots : Op → Bool
  | .addReaction _ _ _ => true
  | .addReply _ _ _ => true
  | .deleteMsg _ => true
  | _ => false

/-! ## Lemmas about the store primitives -/

theorem alookup_aset_self {α : Type} (k : String) (v : α) (m : List (String × α)) :
    alookup k (aset k v m) = some v := by
  induction m with
  | nil => simp [aset, alookup]
  | cons e rest ih =>
    obtain ⟨k', v'⟩ := e
    by_cases h : k' = k <;> simp [aset, alookup, h, ih]

theorem alookup_aset_of_ne {α : Type} {k k' : String} (h : k' ≠ k) (v : α)
    (m : List (String × α)) : alookup k' (aset k v m) = alookup k' m := by
  have hne : k ≠ k' := Ne.symm h
  induction m with
  | nil => simp [aset, alookup, hne]
  | cons e rest ih =>
    obtain ⟨k'', v''⟩ := e
    by_cases hk : k'' = k
    · subst hk
      simp [aset, alookup, hne]
    · by_cases hk' : k'' = k' <;> simp [aset, alookup, hk, hk', ih, h]

theorem alookup_aerase_of_ne {α : Type} {k k' : String} (h : k' ≠ k)
    (m : List (String × α)) : alookup k' (aerase k m) = alookup k' m := by
  have hne : k ≠ k' := Ne.symm h
  induction m with
  | nil => simp [aerase]
  | cons e rest ih =>
    obtain ⟨k'', v''⟩ := e
    by_cases hk : k'' = k
    · subst hk
      simp [aerase, alookup, hne]
    · by_cases hk' : k'' = k' <;> simp [aerase, alookup, hk, hk', ih, h]

theorem alookup_eq_none_iff {α : Type} (k : String) (m : List (String × α)) :
    alookup k m = none ↔ ∀ e ∈ m, e.1 ≠ k := by
  induction m with
  | nil => simp [alookup]
  | cons e rest ih =>
    obtain ⟨k', v'⟩ := e
    by_cases h : k' = k <;> simp [alookup, h, ih]

theorem alookup_aerase_self {α : Type} {k : String} {m : List (String × α)}
    (h : (m.map Prod.fst).Nodup) : alookup k (aerase k m) = none := by
  induction m with
  | nil => simp [aerase, alookup]
  | cons e rest ih =>
    obtain ⟨k', v'⟩ := e
    simp only [List.map_cons, List.nodup_cons] at h
    by_cases hk : k' = k
    · subst hk
      simp only [aerase, if_pos rfl]
      rw [alookup_eq_none_iff]
      intro e he heq
      exact h.1 (heq ▸ List.mem_map_of_mem Prod.fst he)
    · simp [aerase, alookup, hk, ih h.2]

theorem alookup_of_mem_of_nodup {α : Type} {k : String} {v : α}
    {m : List (String × α)} (hn : (m.map Prod.fst).Nodup) (hm : (k, v) ∈ m) :
    alookup k m = some v := by
  induction m with
  | nil => simp at hm
  | cons e rest ih =>
    obtain ⟨k', v'⟩ := e
    simp only [List.map_cons, List.nodup_cons] at hn
    rcases List.mem_cons.mp hm with h | h
    · rw [Prod.mk.injEq] at h
      simp [alookup, h.1, h.2]
    · have hne : k' ≠ k := by
        intro hh
        exact hn.1 (hh ▸ List.mem_map_of_mem Prod.fst h)
      simp [alookup, hne, ih hn.2 h]

/-! ## Lemmas about the scans of deleteMessage and updateMessageTags -/

theorem findMsgInList_eq_none_iff (l : List Message) (messageId : String) :
    findMsgInList l messageId = none ↔ ∀ m ∈ l, m.id ≠ messageId := by
  induction l with
  | nil => simp [findMsgInList]
  | cons m rest ih =>
    by_cases h : m.id = messageId <;> simp [findMsgInList, h, ih]

theorem eraseFirstMsg_eq_none_iff (msgs : MessagesStore) (messageId : String) :
    eraseFirstMsg msgs messageId = none ↔ ∀ e ∈ msgs, ∀ m ∈ e.2, m.id ≠ messageId := by
  induction msgs with
  | nil => simp [eraseFirstMsg]
  | cons e rest ih =>
    obtain ⟨cid, l⟩ := e
    rcases hf : findMsgInList l messageId with _ | p
    · have hf' := (findMsgInList_eq_none_iff l messageId).mp hf
      simp only [eraseFirstMsg, hf, Option.map_eq_none']
      rw [ih]
      constructor
      · intro hr e he
        rcases List.mem_cons.mp he with h0 | h1
        · subst h0
          exact hf'
        · exact hr e h1
      · intro hr e he
        exact hr e (List.mem_cons_of_mem _ he)
    · have : ¬ ∀ m ∈ l, m.id ≠ messageId := by
        rw [← findMsgInList_eq_none_iff, hf]
        simp
      simp [eraseFirstMsg, hf, this]

theorem updateTagsInList_eq_none_iff (l : List Message) (messageId : String)
    (tags : List String) :
    updateTagsInList l messageId tags = none ↔ ∀ m ∈ l, m.id ≠ messageId := by
  induction l with
  | nil => simp [updateTagsInList]
  | cons m rest ih =>
    by_cases h : m.id = messageId <;> simp [updateTagsInList, h, ih]

theorem updateTagsInStore_eq_none_iff (msgs : MessagesStore) (messageId : String)
    (tags : List String) :
    updateTagsInStore msgs messageId tags = none ↔
      ∀ e ∈ msgs, ∀ m ∈ e.2, m.id ≠ messageId := by
  induction msgs with
  | nil => simp [updateTagsInStore]
  | cons e rest ih =>
    obtain ⟨cid, l⟩ := e
    rcases hu : updateTagsInList l messageId tags with _ | l'
    · have hu' := (updateTagsInList_eq_none_iff l messageId tags).mp hu
      simp only [updateTagsInStore, hu, Option.map_eq_none']
      rw [ih]
      constructor
      · intro hr e he
        rcases List.mem_cons.mp he with h0 | h1
        · subst h0
          exact hu'
        · exact hr e h1
      · intro hr e he
        exact hr e (List.mem_cons_of_mem _ he)
    · have : ¬ ∀ m ∈ l, m.id ≠ messageId := by
        rw [← updateTagsInList_eq_none_iff l messageId tags, hu]
        simp
      simp [updateTagsInStore, hu, this]

/-! ## A spec-side description of retagging, following the words of the
claim: the first message carrying the id gets exactly its `tags` field
replaced, while every other message, every other field, and every other
list is left unchanged. -/

/-- `RetagFirstList messageId tags l l'`: `l'` is `l` with exactly the
first message whose id is `messageId` replaced by the same message with
its `tags` field set to `tags`. -/
inductive RetagFirstList (messageId : String) (tags : List String) :
    List Message → List Message → Prop
  | head (m : Message) (rest : List Message) (h : m.id = messageId) :
      RetagFirstList messageId tags (m :: rest) ({ m with tags := tags } :: rest)
  | cons (m : Message) {l l' : List Message} (h : m.id ≠ messageId)
      (tail : RetagFirstList messageId tags l l') :
      RetagFirstList messageId tags (m :: l) (m :: l')

/-- `RetagFirstStore messageId tags s s'`: `s'` is `s` with exactly the
first conversation entry containing a message with id `messageId` retagged
via `RetagFirstList`, every other entry kept as is. -/
inductive RetagFirstStore (messageId : String) (tags : List String) :
    MessagesStore → MessagesStore → Prop
  | head (cid : String) (l l' : List Message) (rest : MessagesStore)
      (h : RetagFirstList messageId tags l l') :
      RetagFirstStore messageId tags ((cid, l) :: rest) ((cid, l') :: rest)
  | cons (cid : String) (l : List Message) {s s' : MessagesStore}
      (h : ∀ m ∈ l, m.id ≠ messageId)
      (tail : RetagFirstStore messageId tags s s') :
      RetagFirstStore messageId tags ((cid, l) :: s) ((cid, l) :: s')

theorem retag_of_updateTagsInList {l l' : List Message} {messageId : String}
    {tags : List String} (h : updateTagsInList l messageId tags = some l') :
    RetagFirstList messageId tags l l' := by
  induction l generalizing l' with
  | nil => simp [updateTagsInList] at h
  | cons m rest ih =>
    by_cases hm : m.id = messageId
    · simp only [updateTagsInList, if_pos hm, Option.some.injEq] at h
      exact h ▸ RetagFirstList.head m rest hm
    · simp only [updateTagsInList, if_neg hm, Option.map_eq_some'] at h
      obtain ⟨l₀, hl₀, rfl⟩ := h
      exact RetagFirstList.cons m hm (ih hl₀)

theorem retag_of_updateTagsInStore {msgs msgs' : MessagesStore} {messageId : String}
    {tags : List String} (h : updateTagsInStore msgs messageId tags = some msgs') :
    RetagFirstStore messageId tags msgs msgs' := by
  induction msgs generalizing msgs' with
  | nil => simp [updateTagsInStore] at h
  | cons e rest ih =>
    obtain ⟨cid, l⟩ := e
    rcases hu : updateTagsInList l messageId tags with _ | l'
    · simp only [updateTagsInStore, hu, Option.map_eq_some'] at h
      obtain ⟨s₀, hs₀, rfl⟩ := h
      exact RetagFirstStore.cons cid l
        ((updateTagsInList_eq_none_iff l messageId tags).mp hu) (ih hs₀)
    · simp only [updateTagsInStore, hu, Option.some.injEq] at h
      exact h ▸ RetagFirstStore.head cid l l' rest (retag_of_updateTagsInList hu)

/-! ## Small list helpers -/

theorem forall₂_self_map {α β : Type} (R : α → β → Prop) (f : α → β) (l : List α)
    (h : ∀ a ∈ l, R a (f a)) : List.Forall₂ R l (l.map f) := by
  induction l with
  | nil => simp
  | cons a rest ih =>
    exact List.Forall₂.cons (h a (List.mem_cons_self a rest))
      (ih fun b hb => h b (List.mem_cons_of_mem a hb))

theorem exists_id_in_map {f : Conversation → Conversation}
    (hf : ∀ c, (f c).id = c.id) {l : List Conversation} {c : Conversation}
    (hc : c ∈ l) : ∃ c' ∈ l.map f, c'.id = c.id :=
  ⟨f c, List.mem_map_of_mem f hc, hf c⟩

/-! ## Concrete fixtures used by witnesses and counterexamples -/

/-- A stored text message from the current user. -/
def msgA : Message :=
  { id := "m1", text := some "hello", timestamp := "t1", senderId := "123",
    senderName := "You", type := some "text" }

/-- A second stored text message from the other participant. -/
def msgB : Message :=
  { id := "m2", text := some "bye", timestamp := "t2", senderId := "456",
    senderName := "Other User", type := some "text" }

/-- The conversation record holding `msgA` and `msgB`; its preview fields
describe `msgB`. -/
def convA : Conversation :=
  { id := "1", participantName := "Sarah", lastMessage := some "bye",
    lastMessageTimestamp := "t2", lastMessageType := some "text",
    read := true, unreadCount := 0 }

/-- A stored reaction on `msgA`. -/
def reactA : Annot :=
  { id := "react_1", emoji := "thumbs-up", timestamp := 25,
    username := "Sarah", userId := "456", createdAt := some "c1" }

/-- A store with one conversation of two messages, one reaction and one
reply on the first message. -/
def baseStore : Store :=
  { messages := [("1", [msgA, msgB])]
    conversations := [convA]
    reactions := [("m1", [reactA])]
    replies := [("m1", [{ id := "reply_1", text := "ok" }])] }

/-- A store whose single conversation holds exactly one message, whose
preview fields describe that message. -/
def soloStore : Store :=
  { messages := [("1", [msgA])]
    conversations := [{ convA with lastMessage := some "hello", lastMessageTimestamp := "t1" }]
    reactions := [("m1", [reactA])]
    replies := [] }

/-! ## The claims -/

/-- C1: `sendMessageToGCP` and `sendAudioMessage` persist a new message
with two separate key-value writes — first the messages blob, then the
conversations blob — and no transactional guarantee: for every starting
store, after only the first write succeeds, the store already contains the
new message appended to the conversation's message array while the
conversations blob — and hence every preview field (`lastMessage`,
`lastMessageTimestamp`, `lastMessageType`, `read`, `unreadCount`) of every
conversation record — is unchanged.  The last conjunct of each half ties
the write list to the full operation. -/
theorem claim_C1 (st : Store) (md : MessageData) (amd : AudioMessageData)
    (now nowA : Nat) (randWf : List Nat) :
    (∃ mw cw, sendMessage_writes st md now
        = [KVWrite.messages mw, KVWrite.conversations cw])
    ∧ (applyWrites st ((sendMessage_writes st md now).take 1)).conversations
        = st.conversations
    ∧ getMessages (applyWrites st ((sendMessage_writes st md now).take 1))
        md.conversationId
        = getMessages st md.conversationId ++ [sendMessage_newMessage md now]
    ∧ (sendMessageToGCP st md now).1 = applyWrites st (sendMessage_writes st md now)
    ∧ (∃ mw cw, sendAudio_writes st amd nowA randWf
        = [KVWrite.messages mw, KVWrite.conversations cw])
    ∧ (applyWrites st ((sendAudio_writes st amd nowA randWf).take 1)).conversations
        = st.conversations
    ∧ getMessages (applyWrites st ((sendAudio_writes st amd nowA randWf).take 1))
        amd.conversationId
        = getMessages st amd.conversationId ++ [sendAudio_newMessage amd nowA randWf]
    ∧ (sendAudioMessage st amd nowA randWf).1
        = applyWrites st (sendAudio_writes st amd nowA randWf) := by
  refine ⟨⟨_, _, rfl⟩, rfl, ?_, rfl, ⟨_, _, rfl⟩, rfl, ?_, rfl⟩
  · simp [getMessages, lookupD, applyWrites, applyWrite, sendMessage_writes,
      sendMessage_messagesAfter, alookup_aset_self]
  · simp [getMessages, lookupD, applyWrites, applyWrite, sendAudio_writes,
      sendAudio_messagesAfter, alookup_aset_self]

/-- C4: `sendMessageToGCP` appends exactly one new message of type
`'text'` carrying the given text, sender and timestamp at the end of the
conversation's array (an absent key simply yields the empty array to
append to), rewrites only the matching conversation record's preview
fields (`lastMessage` to the text, `lastMessageType` to `'text'`,
`lastMessageTimestamp` to the timestamp, identity fields untouched),
leaves every other conversation record and every other conversation's
message array unchanged, and does not touch the reactions or replies
blobs. -/
theorem claim_C4 (st : Store) (md : MessageData) (now : Nat) :
    getMessages (sendMessageToGCP st md now).1 md.conversationId
        = getMessages st md.conversationId ++ [sendMessage_newMessage md now]
    ∧ (sendMessage_newMessage md now).type = some "text"
    ∧ (sendMessage_newMessage md now).text = some md.text
    ∧ (sendMessage_newMessage md now).senderId = md.senderId
    ∧ (sendMessage_newMessage md now).timestamp = md.timestamp
    ∧ (∀ cid, cid ≠ md.conversationId →
        getMessages (sendMessageToGCP st md now).1 cid = getMessages st cid)
    ∧ (sendMessageToGCP st md now).1.reactions = st.reactions
    ∧ (sendMessageToGCP st md now).1.replies = st.replies
    ∧ List.Forall₂ (fun conv conv' =>
        (conv.id ≠ md.conversationId → conv' = conv)
        ∧ (conv.id = md.conversationId →
            conv'.id = conv.id
            ∧ conv'.participantName = conv.participantName
            ∧ conv'.participantAvatar = conv.participantAvatar
            ∧ conv'.lastMessage = some md.text
            ∧ conv'.lastMessageTimestamp = md.timestamp
            ∧ conv'.lastMessageType = some "text"))
        st.conversations (sendMessageToGCP st md now).1.conversations := by
  refine ⟨?_, rfl, rfl, rfl, rfl, ?_, rfl, rfl, ?_⟩
  · simp [getMessages, lookupD, sendMessageToGCP, applyWrites, applyWrite,
      sendMessage_writes, sendMessage_messagesAfter, alookup_aset_self]
  · intro cid hne
    simp [getMessages, lookupD, sendMessageToGCP, applyWrites, applyWrite,
      sendMessage_writes, sendMessage_messagesAfter, alookup_aset_of_ne hne]
  · show List.Forall₂ _ st.conversations (sendMessage_conversationsAfter st.conversations md)
    simp only [sendMessage_conversationsAfter]
    apply forall₂_self_map
    intro c _
    by_cases h : c.id = md.conversationId
    · refine ⟨fun hne => absurd h hne, fun _ => ?_⟩
      simp [if_pos h]
    · exact ⟨fun _ => by simp [if_neg h], fun heq => absurd heq h⟩

/-- C4 witness: at a concrete store, a message list other than the target
conversation's is unchanged by `sendMessageToGCP`. -/
theorem claim_C4_witness :
    getMessages (sendMessageToGCP baseStore
        { conversationId := "1", text := "x", senderId := "123", timestamp := "t3" } 7).1 "2"
      = getMessages baseStore "2" :=
  (claim_C4 baseStore
    { conversationId := "1", text := "x", senderId := "123", timestamp := "t3" } 7
    ).2.2.2.2.2.1 "2" (by decide)

/-- C6: `getMessages` returns exactly the array stored under the requested
conversation id (when the blob's keys are distinct, as JavaScript object
keys always are), and the empty array when no entry has that id.  It is a
pure read: the embedding returns only the array and takes the store
unchanged. -/
theorem claim_C6 (st : Store) (conversationId : String) :
    ((st.messages.map Prod.fst).Nodup →
      ∀ ms, (conversationId, ms) ∈ st.messages → getMessages st conversationId = ms)
    ∧ ((∀ e ∈ st.messages, e.1 ≠ conversationId) → getMessages st conversationId = []) := by
  constructor
  · intro hn ms hm
    simp [getMessages, lookupD, alookup_of_mem_of_nodup hn hm]
  · intro h
    simp [getMessages, lookupD, (alookup_eq_none_iff _ _).mpr h]

/-- C6 witness: on a concrete store, the stored array comes back verbatim
and an unknown id yields the empty array. -/
theorem claim_C6_witness :
    getMessages baseStore "1" = [msgA, msgB] ∧ getMessages baseStore "zzz" = [] :=
  ⟨(claim_C6 baseStore "1").1 (by decide) [msgA, msgB] (by decide),
   (claim_C6 baseStore "zzz").2 (by decide)⟩

/-- C8: `transcribeAudio` returns the same fixed transcription — the same
text string and the same five timestamped segments — for every input
`audioUri`; the result is a constant (the source function reads neither its
argument nor any blob of the store). -/
theorem claim_C8 (u v : String) :
    transcribeAudio u = transcribeAudio v
    ∧ (transcribeAudio u).text
        = "This is a sample transcription of the audio message. In a real app, this would be the actual transcribed content from a speech-to-text service."
    ∧ (transcribeAudio u).segments
        = [ { text := "This is a sample transcription", startTenths := 0, endTenths := 32 },
            { text := "of the audio message.", startTenths := 33, endTenths := 51 },
            { text := "In a real app, this would be", startTenths := 52, endTenths := 78 },
            { text := "the actual transcribed content", startTenths := 79, endTenths := 105 },
            { text := "from a speech-to-text service.", startTenths := 106, endTenths := 132 } ]
    ∧ (transcribeAudio u).segments.length = 5 :=
  ⟨rfl, rfl, rfl, rfl⟩

/-- C10: when no conversation's message array contains a message with the
given id, `deleteMessage` returns `false` and leaves all four blobs —
messages, conversations, reactions and replies — completely unchanged. -/
theorem claim_C10 (st : Store) (messageId : String)
    (h : ∀ e ∈ st.messages, ∀ m ∈ e.2, m.id ≠ messageId) :
    deleteMessage st messageId = (false, st) := by
  have hnone : eraseFirstMsg st.messages messageId = none :=
    (eraseFirstMsg_eq_none_iff _ _).mpr h
  simp [deleteMessage, hnone]

/-- C10 witness: deleting an unknown message id from a concrete store is a
no-op returning `false`. -/
theorem claim_C10_witness : deleteMessage baseStore "nope" = (false, baseStore) :=
  claim_C10 baseStore "nope" (by decide)

/-- C9: when some conversation's array contains a message with the given
id, `updateMessageTags` returns `true` and replaces exactly the `tags`
field of the first such message — every other field of that message, every
other message and every other conversation's array are unchanged
(`RetagFirstStore` states precisely this), and the conversations,
reactions and replies blobs are untouched; when no conversation has such a
message it returns `false` and performs no write at all. -/
theorem claim_C9 (st : Store) (messageId : String) (tags : List String) :
    ((∀ e ∈ st.messages, ∀ m ∈ e.2, m.id ≠ messageId) →
        updateMessageTags st messageId tags = (false, st))
    ∧ ((∃ e ∈ st.messages, ∃ m ∈ e.2, m.id = messageId) →
        (updateMessageTags st messageId tags).1 = true
        ∧ (updateMessageTags st messageId tags).2.conversations = st.conversations
        ∧ (updateMessageTags st messageId tags).2.reactions = st.reactions
        ∧ (updateMessageTags st messageId tags).2.replies = st.replies
        ∧ RetagFirstStore messageId tags st.messages
            (updateMessageTags st messageId tags).2.messages) := by
  constructor
  · intro h
    have hnone : updateTagsInStore st.messages messageId tags = none :=
      (updateTagsInStore_eq_none_iff _ _ _).mpr h
    simp [updateMessageTags, hnone]
  · intro h
    rcases hs : updateTagsInStore st.messages messageId tags with _ | s'
    · exfalso
      obtain ⟨e, he, m, hm, hid⟩ := h
      exact ((updateTagsInStore_eq_none_iff _ _ _).mp hs) e he m hm hid
    · simp only [updateMessageTags, hs]
      exact ⟨by trivial, by trivial, by trivial, by trivial,
             retag_of_updateTagsInStore hs⟩

/-- C9 witness: retagging a stored message at a concrete store succeeds and
the result is related to the old blob by `RetagFirstStore`. -/
theorem claim_C9_witness :
    (updateMessageTags baseStore "m2" ["starred"]).1 = true
    ∧ RetagFirstStore "m2" ["starred"] baseStore.messages
        (updateMessageTags baseStore "m2" ["starred"]).2.messages :=
  ⟨((claim_C9 baseStore "m2" ["starred"]).2 (by decide)).1,
   ((claim_C9 baseStore "m2" ["starred"]).2 (by decide)).2.2.2.2⟩

/-- A stored message whose `type` property is present but empty and whose
`audioUri` property is present but empty. -/
def emptyTypedMsg : Message := { id := "e1", type := some "", audioUri := some "" }

/-- C7 counterexample: the source tests `!msg.type` and `msg.audioUri`,
i.e. JavaScript truthiness, not presence.  A message whose `type` property
is present but equal to `""` already has a type, yet `fixMessageTypes`
rewrites it; and although that message has an `audioUri` (the empty
string), it is assigned `'text'`, not `'audio'`. -/
theorem claim_C7_counterexample :
    emptyTypedMsg.type = some ""
    ∧ emptyTypedMsg.audioUri = some ""
    ∧ fixMessageTypes [("1", [emptyTypedMsg])]
        = [("1", [{ emptyTypedMsg with type := some "text" }])]
    ∧ ({ emptyTypedMsg with type := some "text" } : Message) ≠ emptyTypedMsg := by
  decide

/-- C7 amended: after `fixMessageTypes`, every message has a non-missing
type: a message whose `type` was missing or empty is assigned `'audio'`
when its `audioUri` is present and non-empty and `'text'` otherwise, and
every message whose `type` was present and non-empty — and every other
field of every message, and the key and order of every entry — is
unchanged. -/
theorem claim_C7_amended (msgs : MessagesStore) :
    List.Forall₂ (fun e e' =>
        e'.1 = e.1
        ∧ List.Forall₂ (fun m m' =>
            (falsyStr m.type = false → m' = m)
            ∧ (falsyStr m.type = true → falsyStr m.audioUri = false →
                m' = { m with type := some "audio" })
            ∧ (falsyStr m.type = true → falsyStr m.audioUri = true →
                m' = { m with type := some "text" }))
          e.2 e'.2)
      msgs (fixMessageTypes msgs)
    ∧ (∀ e ∈ fixMessageTypes msgs, ∀ m ∈ e.2, m.type ≠ none) := by
  constructor
  · simp only [fixMessageTypes]
    apply forall₂_self_map
    intro e _
    refine ⟨rfl, ?_⟩
    apply forall₂_self_map
    intro m _
    rcases ht : falsyStr m.type with _ | _
    · simp [fixMessageType, ht]
    · rcases ha : falsyStr m.audioUri with _ | _ <;> simp [fixMessageType, ht, ha]
  · intro e he m hm
    simp only [fixMessageTypes, List.mem_map] at he
    obtain ⟨e₀, he₀, rfl⟩ := he
    rw [List.mem_map] at hm
    obtain ⟨m₀, hm₀, rfl⟩ := hm
    rcases ht : falsyStr m₀.type with _ | _
    · rcases htt : m₀.type with _ | s
      · rw [htt] at ht
        simp [falsyStr] at ht
      · rw [htt] at ht
        simp [fixMessageType, ht, htt]
    · rcases ha : falsyStr m₀.audioUri with _ | _ <;> simp [fixMessageType, ht, ha]

/-- C7 witness: the amended repair property instantiated at a concrete
blob. -/
theorem claim_C7_witness :
    ∀ e ∈ fixMessageTypes [("1", [msgA, { id := "x" }])], ∀ m ∈ e.2, m.type ≠ none :=
  (claim_C7_amended [("1", [msgA, { id := "x" }])]).2

/-- C3 counterexample: in `soloStore`, conversation `"1"` contains exactly
one message, `m1`.  `deleteMessage "m1"` succeeds (returns `true`) and
empties the conversation's array, but the conversation record is not
mutated at all: its preview fields still carry the deleted message's text
and timestamp even though no message remains for them to describe. -/
theorem claim_C3_counterexample :
    (deleteMessage soloStore "m1").1 = true
    ∧ getMessages (deleteMessage soloStore "m1").2 "1" = []
    ∧ (deleteMessage soloStore "m1").2.conversations = soloStore.conversations
    ∧ lookupD soloStore.messages "1" [] = [msgA]
    ∧ soloStore.conversations
        = [{ convA with lastMessage := some "hello", lastMessageTimestamp := "t1" }] := by
  decide

/-- C3 amended: when `deleteMessage` finds and removes the message (the
hypotheses are the source's search loop succeeding and the containing
conversation key being non-empty — the `!conversationId` guard at line 513
returns `false` with no writes for a message stored under the empty-string
key), it returns `true`; if at least one message remains in that
conversation's array, every conversation record carrying the
conversation's id has its `lastMessage`, `lastMessageTimestamp` and
`lastMessageType` fields rewritten to describe the new last remaining
message; if the array becomes empty, the conversations blob is left
completely unchanged (the stale preview is kept). -/
theorem claim_C3_amended (st : Store) (messageId conversationId : String)
    (deleted : Message) (newList : List Message) (messages' : MessagesStore)
    (h : eraseFirstMsg st.messages messageId
        = some (conversationId, deleted, newList, messages'))
    (hcid : conversationId ≠ "") :
    (deleteMessage st messageId).1 = true
    ∧ (deleteMessage st messageId).2.messages = messages'
    ∧ (newList = [] → (deleteMessage st messageId).2.conversations = st.conversations)
    ∧ (∀ lastMessage, newList.getLast? = some lastMessage →
        ∀ c' ∈ (deleteMessage st messageId).2.conversations, c'.id = conversationId →
          c'.lastMessage = previewText lastMessage
          ∧ c'.lastMessageTimestamp = lastMessage.timestamp
          ∧ c'.lastMessageType = lastMessage.type) := by
  simp only [deleteMessage, h, if_neg hcid]
  refine ⟨by trivial, by trivial, ?_, ?_⟩
  · intro h0
    subst h0
    rfl
  · intro lastMessage hlm
    simp only [hlm]
    intro c' hc' hid
    rw [List.mem_map] at hc'
    obtain ⟨c, _, rfl⟩ := hc'
    by_cases hcid : c.id = conversationId
    · simp [if_pos hcid]
    · rw [if_neg hcid] at hid ⊢
      exact absurd hid hcid

/-- C3 witness: deleting `m2` from `baseStore` leaves `m1`, and the blob
after the operation is exactly the spliced one from the search. -/
theorem claim_C3_witness :
    (deleteMessage baseStore "m2").1 = true
    ∧ (deleteMessage baseStore "m2").2.messages = [("1", [msgA])] :=
  ⟨(claim_C3_amended baseStore "m2" "1" msgB [msgA] [("1", [msgA])]
      (by decide) (by decide)).1,
   (claim_C3_amended baseStore "m2" "1" msgB [msgA] [("1", [msgA])]
      (by decide) (by decide)).2.1⟩

/-- C5: conversations are never deleted: every exported store-mutating
operation other than `clearAllData` (which is not an `Op`) preserves
membership in the conversations blob — any conversation id present before
the operation is still present after it.  `createNewConversation` only
prepends, the map-based updaters keep ids, and `deleteMessage` only maps
over or keeps the conversation array. -/
theorem claim_C5 (op : Op) (st : Store) (c : Conversation)
    (hc : c ∈ st.conversations) :
    ∃ c' ∈ (applyOp op st).conversations, c'.id = c.id := by
  cases op with
  | sendMessage md now =>
    exact exists_id_in_map
      (fun c0 => by by_cases h : c0.id = md.conversationId <;> simp [h]) hc
  | sendAudio amd now randWf =>
    exact exists_id_in_map
      (fun c0 => by by_cases h : c0.id = amd.conversationId <;> simp [h]) hc
  | updateTags messageId tags =>
    rcases hs : updateTagsInStore st.messages messageId tags with _ | s' <;>
      · simp only [applyOp, updateMessageTags, hs]
        exact ⟨c, hc, rfl⟩
  | addReaction messageId a nowIso => exact ⟨c, hc, rfl⟩
  | addReply messageId a nowIso => exact ⟨c, hc, rfl⟩
  | markRead conversationId userId =>
    exact exists_id_in_map
      (fun c0 => by by_cases h : c0.id = conversationId <;> simp [h]) hc
  | newConversation pd now nowIso randAvatar =>
    exact ⟨c, List.mem_cons_of_mem _ hc, rfl⟩
  | deleteMsg messageId =>
    rcases he : eraseFirstMsg st.messages messageId with _ | r
    · simp only [applyOp, deleteMessage, he]
      exact ⟨c, hc, rfl⟩
    · obtain ⟨cid, deleted, newList, msgs'⟩ := r
      by_cases hcid : cid = ""
      · simp only [applyOp, deleteMessage, he, if_pos hcid]
        exact ⟨c, hc, rfl⟩
      · simp only [applyOp, deleteMessage, he, if_neg hcid]
        rcases hl : newList.getLast? with _ | lm
        · simp only [hl]
          exact ⟨c, hc, rfl⟩
        · simp only [hl]
          exact exists_id_in_map
            (fun c0 => by by_cases h : c0.id = cid <;> simp [h]) hc

/-- C5 witness: a conversation id survives a concrete operation. -/
theorem claim_C5_witness :
    ∃ c' ∈ (applyOp (Op.markRead "1" "123") baseStore).conversations, c'.id = convA.id :=
  claim_C5 (Op.markRead "1" "123") baseStore convA (by decide)

/-- C2 counterexample: `deleteMessage` is an exported operation that
removes existing annotations: deleting `m1` from `baseStore` (which holds
one reaction and one reply under `m1`) wipes both lists, so it is not the
case that no operation ever removes an annotation. -/
theorem claim_C2_counterexample :
    lookupD baseStore.reactions "m1" [] = [reactA]
    ∧ lookupD baseStore.replies "m1" [] = [{ id := "reply_1", text := "ok" }]
    ∧ lookupD (applyOp (Op.deleteMsg "m1") baseStore).reactions "m1" [] = []
    ∧ lookupD (applyOp (Op.deleteMsg "m1") baseStore).replies "m1" [] = [] := by
  decide

/-- C2 amended: the reaction and reply lists are append-only under every
exported operation except `deleteMessage` (and `clearAllData`, which
resets all blobs and is outside `Op`): `addReactionToMessage` and
`addReplyToMessage` append exactly one annotation (with a defaulted
`createdAt`) at the end of the given message id's list and change no other
list of either blob; every other operation leaves both blobs entirely
unchanged; and `deleteMessage` removes exactly the deleted message id's
reaction and reply lists — provided the containing conversation key is
non-empty, since the `!conversationId` guard at line 513 makes the source
return `false` and write nothing for a message stored under the
empty-string key — leaving every other message id's lists unchanged. -/
theorem claim_C2_amended (st : Store) (messageId : String) :
    (∀ a nowIso,
        lookupD ((addReactionToMessage st messageId a nowIso).2).reactions messageId []
          = lookupD st.reactions messageId [] ++ [annotWithCreatedAt a nowIso]
        ∧ ((addReactionToMessage st messageId a nowIso).2).replies = st.replies
        ∧ ∀ other, other ≠ messageId →
            lookupD ((addReactionToMessage st messageId a nowIso).2).reactions other []
              = lookupD st.reactions other [])
    ∧ (∀ a nowIso,
        lookupD ((addReplyToMessage st messageId a nowIso).2).replies messageId []
          = lookupD st.replies messageId [] ++ [annotWithCreatedAt a nowIso]
        ∧ ((addReplyToMessage st messageId a nowIso).2).reactions = st.reactions
        ∧ ∀ other, other ≠ messageId →
            lookupD ((addReplyToMessage st messageId a nowIso).2).replies other []
              = lookupD st.replies other [])
    ∧ (∀ op, opTouchesAnnots op = false →
        (applyOp op st).reactions = st.reactions ∧ (applyOp op st).replies = st.replies)
    ∧ (∀ did, did ≠ messageId →
        lookupD (applyOp (Op.deleteMsg did) st).reactions messageId []
          = lookupD st.reactions messageId []
        ∧ lookupD (applyOp (Op.deleteMsg did) st).replies messageId []
          = lookupD st.replies messageId [])
    ∧ (∀ cid deleted newList msgs',
        eraseFirstMsg st.messages messageId = some (cid, deleted, newList, msgs') →
        cid ≠ "" →
        (st.reactions.map Prod.fst).Nodup → (st.replies.map Prod.fst).Nodup →
        lookupD (applyOp (Op.deleteMsg messageId) st).reactions messageId [] = []
        ∧ lookupD (applyOp (Op.deleteMsg messageId) st).replies messageId [] = []) := by
  refine ⟨?_, ?_, ?_, ?_, ?_⟩
  · intro a nowIso
    refine ⟨?_, rfl, ?_⟩
    · simp [addReactionToMessage, addAnnot, lookupD, alookup_aset_self]
    · intro other hne
      simp [addReactionToMessage, addAnnot, lookupD, alookup_aset_of_ne hne]
  · intro a nowIso
    refine ⟨?_, rfl, ?_⟩
    · simp [addReplyToMessage, addAnnot, lookupD, alookup_aset_self]
    · intro other hne
      simp [addReplyToMessage, addAnnot, lookupD, alookup_aset_of_ne hne]
  · intro op hop
    cases op with
    | sendMessage md now => exact ⟨rfl, rfl⟩
    | sendAudio amd now randWf => exact ⟨rfl, rfl⟩
    | updateTags mid tags =>
      rcases hs : updateTagsInStore st.messages mid tags with _ | s' <;>
        · simp only [applyOp, updateMessageTags, hs]
          exact ⟨by trivial, by trivial⟩
    | addReaction mid a nowIso => simp [opTouchesAnnots] at hop
    | addReply mid a nowIso => simp [opTouchesAnnots] at hop
    | markRead cid userId => exact ⟨rfl, rfl⟩
    | newConversation pd now nowIso randAvatar => exact ⟨rfl, rfl⟩
    | deleteMsg mid => simp [opTouchesAnnots] at hop
  · intro did hne
    rcases he : eraseFirstMsg st.messages did with _ | r
    · simp only [applyOp, deleteMessage, he]
      exact ⟨by trivial, by trivial⟩
    · obtain ⟨cid, deleted, newList, msgs'⟩ := r
      have hmne : messageId ≠ did := Ne.symm hne
      by_cases hcid : cid = ""
      · simp only [applyOp, deleteMessage, he, if_pos hcid]
        exact ⟨by trivial, by trivial⟩
      · simp only [applyOp, deleteMessage, he, if_neg hcid]
        exact ⟨by simp [lookupD, alookup_aerase_of_ne hmne],
               by simp [lookupD, alookup_aerase_of_ne hmne]⟩
  · intro cid deleted newList msgs' he hcid hnr hnp
    simp only [applyOp, deleteMessage, he, if_neg hcid]
    exact ⟨by simp [lookupD, alookup_aerase_self hnr],
           by simp [lookupD, alookup_aerase_self hnp]⟩

/-- C2 witness: the delete clause of the amended claim at a concrete
store: deleting `m1` empties its reaction and reply lists. -/
theorem claim_C2_witness :
    lookupD (applyOp (Op.deleteMsg "m1") baseStore).reactions "m1" [] = []
    ∧ lookupD (applyOp (Op.deleteMsg "m1") baseStore).replies "m1" [] = [] :=
  (claim_C2_amended baseStore "m1").2.2.2.2 "1" msgA [msgB] [("1", [msgB])]
    (by decide) (by decide) (by decide) (by decide)

end WaveChat
